import Mathlib

/-!
# k8s-svc-controller: the bootstrap of `app/api/main.go`

A shallow embedding of `main` and `run` of `src/app/api/main.go`.

`run` talks to four collaborators that are not part of the repository
(`conf`, `pkg/errors`, `net/http`, `os/signal`).  Every call into them is an
entry of the record `Env`, which fixes what the call returns in one execution;
`run` is then a function from `Env` to the value it returns and the list of
externally visible events it performs, in program order.
-/

namespace SvcController

/-! ## Go errors and `pkg/errors` -/

/-- A Go `error` value different from `nil`.  `errHelpWanted` and
`errVersionWanted` are the two sentinel values of package `conf` that `run`
compares against with `switch err`; `plain` is any other error of a library;
`wrapped` is what `errors.Wrap` builds. -/
inductive GoError where
  | errHelpWanted : GoError
  | errVersionWanted : GoError
  | plain (msg : String) : GoError
  | wrapped (cause : GoError) (msg : String) : GoError
  deriving DecidableEq, Repr

/-- The Go interface type `error`: `none` is `nil`. -/
abbrev Error := Option GoError

/-- The method `Error()`: the message of an error.  A wrapped error prints its
own message, a colon and a blank, and the message of its cause. -/
def GoError.Error : GoError → String
  | .errHelpWanted => "help wanted"
  | .errVersionWanted => "version wanted"
  | .plain msg => msg
  | .wrapped cause msg => msg ++ ": " ++ cause.Error

/-- The method `Cause()` of the wrapper built by `errors.Wrap`: the error that
was wrapped; errors of other kinds have no such method. -/
def GoError.Cause : GoError → Option GoError
  | .wrapped cause _ => some cause
  | _ => none

/-- The function `errors.Wrap(err, message)`: `nil` stays `nil`, any other
error is annotated with the message. -/
def errorsWrap (err : Error) (message : String) : Error :=
  match err with
  | none => none
  | some e => some (.wrapped e message)

/-! ## Configuration -/

/-- A `time.Duration`, counted in nanoseconds. -/
abbrev Duration := Int

/-- The constant `time.Second`. -/
def second : Duration := 1000000000

/-- An instant of the wall clock, in nanoseconds. -/
abbrev Time := Int

/-- The embedded `conf.Version` of the configuration struct. -/
structure ConfVersion where
  SVN : String
  Desc : String
  deriving DecidableEq, Repr

/-- The field `Web` of the configuration struct (lines 39-44). -/
structure WebCfg where
  APIHost : String
  ReadTimeout : Duration
  WriteTimeout : Duration
  ShutdownTimeout : Duration
  deriving DecidableEq, Repr

/-- The variable `cfg` of `run` (lines 37-45). -/
structure Cfg where
  Version : ConfVersion
  Web : WebCfg
  deriving DecidableEq, Repr

/-- The package variable `build` (line 16). -/
def build : String := "develop"

/-- The constant `tlsCertPath` (line 20). -/
def tlsCertPath : String := "/certs/webhook.crt"

/-- The constant `tlsKeyPATH` (line 21). -/
def tlsKeyPATH : String := "/certs/webhook-key.pem"

/-- Values that the command line or the environment supply for the fields of
`Web`, already converted to the type of the field; `none` where the field is
not overridden. -/
structure Overrides where
  APIHost : Option String
  ReadTimeout : Option Duration
  WriteTimeout : Option Duration
  ShutdownTimeout : Option Duration
  deriving DecidableEq, Repr

/-- The execution in which nothing overrides a field. -/
def noOverrides : Overrides := ⟨none, none, none, none⟩

/-- The configuration that a successful `conf.Parse` leaves in `cfg`: the two
version fields as lines 47-48 set them, and every field of `Web` holding its
override or else the value of its `conf:"default:..."` tag (lines 40-43). -/
def parsedCfg (o : Overrides) : Cfg :=
  { Version := { SVN := build, Desc := "copyright v1.0.0" }
    Web :=
      { APIHost := o.APIHost.getD "0.0.0.0:443"
        ReadTimeout := o.ReadTimeout.getD (5 * second)
        WriteTimeout := o.WriteTimeout.getD (5 * second)
        ShutdownTimeout := o.ShutdownTimeout.getD (5 * second) } }

/-! ## Events -/

/-- The two signals registered with `signal.Notify` at line 85, the only ones
the channel `shutdown` can carry. -/
inductive Signal where
  | interrupt : Signal
  | terminated : Signal
  deriving DecidableEq, Repr

/-- The method `String()` of a signal, used by the verb `%v` at line 113. -/
def Signal.String : Signal → String
  | .interrupt => "interrupt"
  | .terminated => "terminated"

/-- The value `api` built at lines 87-92; the handler is left `nil` there. -/
structure HttpServer where
  Addr : String
  ReadTimeout : Duration
  WriteTimeout : Duration
  deriving DecidableEq, Repr

/-- A context made by `context.WithTimeout` from the background context: only
its deadline matters. -/
structure Context where
  deadline : Time
  deriving DecidableEq, Repr

/-- The call `context.WithTimeout(context.Background(), timeout)` made when the
clock reads `now`. -/
def withTimeout (now : Time) (timeout : Duration) : Context :=
  { deadline := now + timeout }

/-- A call of the logger, identified by the statement that makes it. -/
inductive LogLine where
  | usage (text : String) : LogLine
  | version (text : String) : LogLine
  | completed : LogLine
  | config (out : String) : LogLine
  | initAPI : LogLine
  | listening (addr : String) : LogLine
  | startShutdown (sig : Signal) : LogLine
  | mainError (err : GoError) : LogLine
  deriving DecidableEq, Repr

/-- The text of a log line, without the header the logger puts in front and
without the final newline. -/
def LogLine.text : LogLine → String
  | .usage text => text
  | .version text => text
  | .completed => "main: Completed"
  | .config out => "main: Config :\n" ++ out
  | .initAPI => "main: Initializing API support"
  | .listening addr => "main: API listening on " ++ addr
  | .startShutdown sig => "main: " ++ sig.String ++ " : Start shutdown"
  | .mainError err => "main: error " ++ err.Error

/-- What the main flow of control of `run` and `main` does that can be seen
from outside, each with the value the collaborator returned. -/
inductive Event where
  | log (line : LogLine) : Event
  | notify : Event
  | spawnListener (api : HttpServer) (certFile keyFile : String) : Event
  | recvServerError (err : Error) : Event
  | recvSignal (sig : Signal) : Event
  | shutdown (ctx : Context) (result : Error) : Event
  | close (result : Error) : Event
  | cancel : Event
  deriving DecidableEq, Repr

/-- The event that the `select` of line 108 takes. -/
inductive Selected where
  | serverError (err : Error) : Selected
  | signal (sig : Signal) : Selected
  deriving DecidableEq, Repr

/-- What the collaborators answer in one execution of `run`. -/
structure Env where
  /-- the result of `conf.Parse` at line 51 -/
  parse : Except GoError Overrides
  /-- the result of `conf.Usage` at line 54 -/
  usage : Except GoError String
  /-- the result of `conf.VersionString` at line 61 -/
  version : Except GoError String
  /-- the result of `conf.String` at line 73 -/
  confString : Except GoError String
  /-- the case the `select` of line 108 takes, with the value received -/
  selected : Selected
  /-- the reading of the clock inside `context.WithTimeout` at line 116 -/
  now : Time
  /-- the result of `api.Shutdown` at line 121 -/
  shutdown : Error
  /-- the result of `api.Close` at line 123 -/
  close : Error

/-- The value a function returns together with the events it performed. -/
structure Outcome where
  ret : Error
  trace : List Event
  deriving DecidableEq, Repr

/-! ## `run` and `main` -/

/-- Lines 108-127: the `select` and what follows it, for the case taken.  The
deferred `cancel` of line 117 runs when the signal case returns. -/
def awaitShutdown (env : Env) (cfg : Cfg) (sel : Selected) : Outcome :=
  match sel with
  | .serverError err =>
    { ret := errorsWrap err "server error"
      trace := [.recvServerError err] }
  | .signal sig =>
    let ctx := withTimeout env.now cfg.Web.ShutdownTimeout
    match env.shutdown with
    | some err =>
      { ret := errorsWrap (some err) "could not stop server gracefully"
        trace := [.recvSignal sig, .log (.startShutdown sig),
                  .shutdown ctx (some err), .close env.close, .cancel] }
    | none =>
      { ret := none
        trace := [.recvSignal sig, .log (.startShutdown sig),
                  .shutdown ctx none, .cancel] }

/-- Lines 73-127: the part of `run` that follows the `defer` of line 71.  The
trace holds what the main flow of control does; the line that the goroutine of
lines 99-102 writes with the same logger has no fixed place among these events
and is added by `step` and `runWithListener`. -/
def runBody (env : Env) (cfg : Cfg) : Outcome :=
  match env.confString with
  | .error err =>
    { ret := errorsWrap (some err) "generating config for output", trace := [] }
  | .ok out =>
    let api : HttpServer :=
      { Addr := cfg.Web.APIHost
        ReadTimeout := cfg.Web.ReadTimeout
        WriteTimeout := cfg.Web.WriteTimeout }
    let rest := awaitShutdown env cfg env.selected
    { ret := rest.ret
      trace := [.log (.config out), .log .initAPI, .notify,
                .spawnListener api tlsCertPath tlsKeyPATH] ++ rest.trace }

/-- The function `run` (lines 33-128). -/
def run (env : Env) : Outcome :=
  match env.parse with
  | .error err =>
    match err with
    | .errHelpWanted =>
      match env.usage with
      | .error e => { ret := errorsWrap (some e) "generating config usage", trace := [] }
      | .ok usage => { ret := none, trace := [.log (.usage usage)] }
    | .errVersionWanted =>
      match env.version with
      | .error e => { ret := errorsWrap (some e) "generating config version", trace := [] }
      | .ok version => { ret := none, trace := [.log (.version version)] }
    | _ => { ret := errorsWrap (some err) "parsing config", trace := [] }
  | .ok o =>
    let body := runBody env (parsedCfg o)
    { ret := body.ret, trace := body.trace ++ [.log .completed] }

/-- How the process ends: the status it exits with and everything it did. -/
structure Exit where
  status : Nat
  trace : List Event
  deriving DecidableEq, Repr

/-- The function `main` (lines 25-31). -/
def main (env : Env) : Exit :=
  let r := run env
  match r.ret with
  | some err => { status := 1, trace := r.trace ++ [.log (.mainError err)] }
  | none => { status := 0, trace := r.trace }

/-- The lines the logger wrote in a trace, in order. -/
def logged (trace : List Event) : List LogLine :=
  trace.filterMap fun
    | .log line => some line
    | _ => none

/-! ## The listener goroutine and the two channels

Lines 84-127 once more, now with the goroutine of lines 99-102, the operating
system and the main flow of control as three parties that take turns.  A state
is taken right after the `go` statement of line 99.  The channels
`serverErrors` (line 96) and `shutdown` (line 84) both have capacity one, so
the buffer of each is empty or holds one value. -/

/-- Where the goroutine of lines 99-102 stands. -/
inductive ListenerPc where
  /-- created by `go`, nothing executed yet -/
  | spawned : ListenerPc
  /-- line 100 done, inside `api.ListenAndServeTLS` -/
  | serving : ListenerPc
  /-- `api.ListenAndServeTLS` has returned `err`, the send of line 101 is next -/
  | sending (err : Error) : ListenerPc
  /-- the send is done and the goroutine is over -/
  | exited : ListenerPc
  deriving DecidableEq, Repr

/-- Where the main flow of control stands. -/
inductive MainPc where
  /-- at the `select` of line 108, no case taken yet -/
  | atSelect : MainPc
  /-- `run` has returned this value -/
  | returned (ret : Error) : MainPc
  deriving DecidableEq, Repr

/-- A state of the three parties. -/
structure State where
  listener : ListenerPc
  main : MainPc
  /-- the buffer of the channel `serverErrors` -/
  serverErrors : Option Error
  /-- the buffer of the channel `shutdown` -/
  shutdown : Option Signal
  /-- everything done since line 99, in the order it happened -/
  trace : List Event
  deriving DecidableEq, Repr

/-- The state right after the `go` statement of line 99. -/
def init : State :=
  { listener := .spawned, main := .atSelect, serverErrors := none, shutdown := none,
    trace := [] }

/-- One turn of one party. -/
inductive Action where
  /-- the goroutine writes its log line (line 100) and calls `api.ListenAndServeTLS` -/
  | listenerLog : Action
  /-- the call `api.ListenAndServeTLS` returns this value -/
  | listenerReturns (err : Error) : Action
  /-- the goroutine sends on `serverErrors` (line 101) and ends -/
  | listenerSend : Action
  /-- the operating system raises a registered signal -/
  | deliver (sig : Signal) : Action
  /-- the `select` takes the case of line 109 and `run` runs to its return -/
  | selectError : Action
  /-- the `select` takes the case of line 112 and `run` runs to its return -/
  | selectSignal : Action
  deriving DecidableEq, Repr

/-- The state after a turn, or `none` when the party cannot take that turn: a
send on a buffered channel needs room in the buffer, a case of `select` needs a
value in the buffer of its channel, and `select` may take any case that can
proceed.  Package `signal` does not block when the buffer of `shutdown` is
full: the signal is dropped. -/
def step (env : Env) (cfg : Cfg) (s : State) : Action → Option State
  | .listenerLog =>
    match s.listener with
    | .spawned =>
      some { s with listener := .serving
                    trace := s.trace ++ [.log (.listening cfg.Web.APIHost)] }
    | _ => none
  | .listenerReturns err =>
    match s.listener with
    | .serving => some { s with listener := .sending err }
    | _ => none
  | .listenerSend =>
    match s.listener, s.serverErrors with
    | .sending err, none => some { s with listener := .exited, serverErrors := some err }
    | _, _ => none
  | .deliver sig =>
    match s.shutdown with
    | none => some { s with shutdown := some sig }
    | some _ => some s
  | .selectError =>
    match s.main, s.serverErrors with
    | .atSelect, some err =>
      let r := awaitShutdown env cfg (.serverError err)
      some { s with main := .returned r.ret, serverErrors := none
                    trace := s.trace ++ r.trace ++ [.log .completed] }
    | _, _ => none
  | .selectSignal =>
    match s.main, s.shutdown with
    | .atSelect, some sig =>
      let r := awaitShutdown env cfg (.signal sig)
      some { s with main := .returned r.ret, shutdown := none
                    trace := s.trace ++ r.trace ++ [.log .completed] }
    | _, _ => none

/-- The state after a list of turns taken one after the other, when each can
be taken. -/
def exec (env : Env) (cfg : Cfg) (s : State) : List Action → Option State
  | [] => some s
  | a :: rest =>
    match step env cfg s a with
    | some s' => exec env cfg s' rest
    | none => none

/-- A state that some list of turns leads to from `init`. -/
def Reachable (env : Env) (cfg : Cfg) (s : State) : Prop :=
  ∃ acts : List Action, exec env cfg init acts = some s

/-- Whether an event is a receive of the `select`. -/
def Event.isRecv : Event → Bool
  | .recvServerError _ => true
  | .recvSignal _ => true
  | _ => false

/-- Whether an event is a call of `api.Shutdown`. -/
def Event.isShutdown : Event → Bool
  | .shutdown _ _ => true
  | _ => false

/-- Whether an event is a call of `api.Close`. -/
def Event.isClose : Event → Bool
  | .close _ => true
  | _ => false

/-- The events of lines 77-102, which every execution that reaches the `select`
performs first. -/
def startEvents (cfg : Cfg) (out : String) : List Event :=
  [.log (.config out), .log .initAPI, .notify,
   .spawnListener ⟨cfg.Web.APIHost, cfg.Web.ReadTimeout, cfg.Web.WriteTimeout⟩
     tlsCertPath tlsKeyPATH]

/-! ## Sample executions -/

/-- An error of the listener: the address is taken. -/
def bindError : GoError := .plain "listen tcp 0.0.0.0:443: bind: address already in use"

/-- The error `context.DeadlineExceeded`, which `api.Shutdown` returns when
the drain outlives its context. -/
def deadlineExceeded : GoError := .plain "context deadline exceeded"

/-- An error of `conf.Parse` for a duration that cannot be read. -/
def badDuration : GoError :=
  .plain "conf: error assigning to field ReadTimeout: converting 'abc' to type time.Duration. details: time: invalid duration abc"

/-- No overrides, the listener fails to bind and that is what `select` takes. -/
def envListenFails : Env :=
  { parse := .ok noOverrides, usage := .ok "usage", version := .ok "version",
    confString := .ok "--web-api-host=0.0.0.0:443", selected := .serverError (some bindError),
    now := 0, shutdown := none, close := none }

/-- No overrides, an interrupt arrives and the drain ends in time. -/
def envCleanDrain : Env :=
  { parse := .ok noOverrides, usage := .ok "usage", version := .ok "version",
    confString := .ok "--web-api-host=0.0.0.0:443", selected := .signal .interrupt,
    now := 1000, shutdown := none, close := none }

/-- No overrides, a termination signal arrives and the drain outlives its
deadline. -/
def envDrainTimeout : Env :=
  { parse := .ok noOverrides, usage := .ok "usage", version := .ok "version",
    confString := .ok "--web-api-host=0.0.0.0:443", selected := .signal .terminated,
    now := 1000, shutdown := some deadlineExceeded, close := none }

/-- The command line asks for help and the usage text is produced. -/
def envHelp : Env :=
  { parse := .error .errHelpWanted, usage := .ok "Usage: k8s-svc-controller [options]",
    version := .ok "version", confString := .ok "", selected := .signal .interrupt,
    now := 0, shutdown := none, close := none }

/-- The configuration holds a duration that cannot be read. -/
def envBadDuration : Env :=
  { parse := .error badDuration, usage := .ok "usage", version := .ok "version",
    confString := .ok "", selected := .signal .interrupt,
    now := 0, shutdown := none, close := none }

/-- What holds of every state the three parties can reach: the buffer of
`serverErrors` holds a value only once the goroutine has made its one send and
ended, and the main flow has received nothing while it waits at the `select`
and exactly one value once `run` has returned. -/
def Inv (s : State) : Prop :=
  (∀ err, s.serverErrors = some err → s.listener = .exited) ∧
    (s.main = .atSelect → s.trace.countP Event.isRecv = 0) ∧
    (∀ r, s.main = .returned r → s.trace.countP Event.isRecv = 1)

/-- The listener fails to bind, then an interrupt is raised, then the `select`
takes the case of the signal. -/
def errorThenSignal : List Action :=
  [.listenerLog, .listenerReturns (some bindError), .listenerSend, .deliver .interrupt,
   .selectSignal]

/-- The line of the goroutine (line 100), once the goroutine has written it. -/
def listenerLine (cfg : Cfg) (pc : ListenerPc) : List Event :=
  match pc with
  | .spawned => []
  | _ => [.log (.listening cfg.Web.APIHost)]

/-- What `state.trace` looks like in every state the three parties can reach:
while the main flow waits at the `select` it holds at most the line of the
goroutine; once `run` has returned it holds the events of the case taken and
the deferred line of line 71, with the line of the goroutine in front of them
or behind them; when the case taken is the listener's error the goroutine is
over and its line is in front. -/
def TraceInv (env : Env) (cfg : Cfg) (s : State) : Prop :=
  (s.main = .atSelect → s.trace = listenerLine cfg s.listener) ∧
    (∀ r, s.main = .returned r → ∃ sel front back,
      r = (awaitShutdown env cfg sel).ret ∧
      s.trace = front ++ (awaitShutdown env cfg sel).trace ++ [.log .completed] ++ back ∧
      front ++ back = listenerLine cfg s.listener ∧
      (∀ err, sel = .serverError err → s.listener = .exited ∧ back = []))

/-- One whole execution of `run` under a schedule of the three parties: the
value `run` returns and everything done with the logger of `run` and with the
collaborators, the line of the goroutine included.  Without a parsed and
printed configuration no goroutine is started and the execution is that of
`run`; otherwise lines 77-102 are followed by the turns of the schedule, which
must bring `run` to its return. -/
def runWithListener (env : Env) (acts : List Action) : Option Outcome :=
  match env.parse, env.confString with
  | .ok o, .ok out =>
    match exec env (parsedCfg o) init acts with
    | some s =>
      match s.main with
      | .returned r => some { ret := r, trace := startEvents (parsedCfg o) out ++ s.trace }
      | .atSelect => none
    | none => none
  | _, _ => some (run env)

/-- An interrupt is raised and handled before the goroutine runs for the first
time; the goroutine writes its line after `run` has returned. -/
def signalBeforeListener : List Action :=
  [.deliver .interrupt, .selectSignal, .listenerLog]

/-- The goroutine writes its line and serves; an interrupt is raised and
handled. -/
def listenerThenSignal : List Action :=
  [.listenerLog, .deliver .interrupt, .selectSignal]

/-- What the execution of `envCleanDrain` under `listenerThenSignal` returns and
does. -/
def cleanDrainOutcome : Outcome :=
  { ret := none
    trace := startEvents (parsedCfg noOverrides) "--web-api-host=0.0.0.0:443" ++
      [.log (.listening "0.0.0.0:443"), .recvSignal .interrupt,
       .log (.startShutdown .interrupt),
       .shutdown (withTimeout 1000 (5 * second)) none, .cancel, .log .completed] }

/-! ## Auxiliary facts about `run` -/

theorem run_of_parse_ok (env : Env) (o : Overrides) (h : env.parse = .ok o) :
    run env = { ret := (runBody env (parsedCfg o)).ret,
                trace := (runBody env (parsedCfg o)).trace ++ [.log .completed] } := by
  simp [run, h]

theorem runBody_of_confString_ok (env : Env) (cfg : Cfg) (out : String)
    (h : env.confString = .ok out) :
    runBody env cfg =
      { ret := (awaitShutdown env cfg env.selected).ret,
        trace := [.log (.config out), .log .initAPI, .notify,
                  .spawnListener ⟨cfg.Web.APIHost, cfg.Web.ReadTimeout, cfg.Web.WriteTimeout⟩
                    tlsCertPath tlsKeyPATH] ++ (awaitShutdown env cfg env.selected).trace } := by
  simp [runBody, h]

/-- The trace of `run` when `conf.Parse` fails holds at most one event, a line
of the log with the usage or the version text. -/
theorem run_trace_of_parse_error (env : Env) (p : GoError) (h : env.parse = .error p) :
    (run env).trace = [] ∨ (∃ text, env.usage = .ok text ∧ p = .errHelpWanted ∧
        (run env).trace = [.log (.usage text)]) ∨
      (∃ text, env.version = .ok text ∧ p = .errVersionWanted ∧
        (run env).trace = [.log (.version text)]) := by
  cases p with
  | errHelpWanted =>
    cases hu : env.usage <;> simp [run, h, hu]
  | errVersionWanted =>
    cases hv : env.version <;> simp [run, h, hv]
  | plain msg => simp [run, h]
  | wrapped cause msg => simp [run, h]

/-- The signal case of `select` is in the trace exactly when the configuration
was parsed and printed and `select` took that case. -/
theorem recvSignal_mem_iff (env : Env) (sig : Signal) :
    Event.recvSignal sig ∈ (run env).trace ↔
      ∃ o out, env.parse = .ok o ∧ env.confString = .ok out ∧ env.selected = .signal sig := by
  constructor
  · intro hmem
    cases hp : env.parse with
    | error p =>
      rcases run_trace_of_parse_error env p hp with h | ⟨_, _, _, h⟩ | ⟨_, _, _, h⟩ <;>
        simp [h] at hmem
    | ok o =>
      rw [run_of_parse_ok env o hp] at hmem
      cases hc : env.confString with
      | error e => simp [runBody, hc] at hmem
      | ok out =>
        rw [runBody_of_confString_ok env _ out hc] at hmem
        cases hs : env.selected with
        | serverError err => simp [awaitShutdown, hs] at hmem
        | signal sig2 =>
          refine ⟨o, out, rfl, rfl, ?_⟩
          cases hsh : env.shutdown <;> simp [awaitShutdown, hs, hsh] at hmem <;> simp [hmem]
  · rintro ⟨o, out, hp, hc, hs⟩
    rw [run_of_parse_ok env o hp, runBody_of_confString_ok env _ out hc]
    cases hsh : env.shutdown <;> simp [awaitShutdown, hs, hsh]

/-- The error case of `select` is in the trace exactly when the configuration
was parsed and printed and `select` took that case. -/
theorem recvServerError_mem_iff (env : Env) (err : Error) :
    Event.recvServerError err ∈ (run env).trace ↔
      ∃ o out, env.parse = .ok o ∧ env.confString = .ok out ∧
        env.selected = .serverError err := by
  constructor
  · intro hmem
    cases hp : env.parse with
    | error p =>
      rcases run_trace_of_parse_error env p hp with h | ⟨_, _, _, h⟩ | ⟨_, _, _, h⟩ <;>
        simp [h] at hmem
    | ok o =>
      rw [run_of_parse_ok env o hp] at hmem
      cases hc : env.confString with
      | error e => simp [runBody, hc] at hmem
      | ok out =>
        rw [runBody_of_confString_ok env _ out hc] at hmem
        cases hs : env.selected with
        | serverError err2 =>
          refine ⟨o, out, rfl, rfl, ?_⟩
          simp [awaitShutdown, hs] at hmem
          simp [hmem]
        | signal sig =>
          cases hsh : env.shutdown <;> simp [awaitShutdown, hs, hsh] at hmem
  · rintro ⟨o, out, hp, hc, hs⟩
    rw [run_of_parse_ok env o hp, runBody_of_confString_ok env _ out hc]
    simp [awaitShutdown, hs]

/-- What `run` returns when the `select` takes the listener's error. -/
theorem server_error_returns (env : Env) (e : GoError)
    (hsel : Event.recvServerError (some e) ∈ (run env).trace) :
    ∃ r, (run env).ret = some r ∧ r = .wrapped e "server error" := by
  obtain ⟨o, out, hp, hc, hs⟩ := (recvServerError_mem_iff env (some e)).mp hsel
  rw [run_of_parse_ok env o hp, runBody_of_confString_ok env _ out hc]
  simp [awaitShutdown, hs, errorsWrap]

/-- A list that starts with `front`, none of whose elements satisfies `p`, is
cut before an element that satisfies `p` only beyond `front`. -/
theorem front_before_first (p : Event → Bool) (front : List Event) :
    ∀ (rest before after : List Event) (y : Event),
      (∀ e ∈ front, p e = false) → p y = true →
      front ++ rest = before ++ y :: after → ∃ k, before = front ++ k := by
  induction front with
  | nil => intro rest before after y _ _ _; exact ⟨before, rfl⟩
  | cons a front ih =>
    intro rest before after y hfront hy heq
    cases before with
    | nil =>
      simp only [List.cons_append, List.nil_append, List.cons.injEq] at heq
      have := hfront a (List.mem_cons_self a front)
      rw [heq.1, hy] at this
      exact absurd this (by simp)
    | cons b before =>
      simp only [List.cons_append, List.cons.injEq] at heq
      obtain ⟨k, hk⟩ := ih rest before after y
        (fun e he => hfront e (List.mem_cons_of_mem a he)) hy heq.2
      exact ⟨k, by rw [heq.1, hk]; rfl⟩

/-- The log of `run` when the configuration parses ends with the deferred line
of line 71. -/
theorem logged_run_of_parse_ok (env : Env) (o : Overrides) (h : env.parse = .ok o) :
    logged (run env).trace = logged (runBody env (parsedCfg o)).trace ++ [.completed] := by
  rw [run_of_parse_ok env o h]
  simp [logged, List.filterMap_append]

/-- The seven shapes the trace of `run` can have. -/
theorem run_trace_shapes (env : Env) :
    (run env).trace = [] ∨
      (∃ text, (run env).trace = [.log (.usage text)]) ∨
      (∃ text, (run env).trace = [.log (.version text)]) ∨
      (run env).trace = [.log .completed] ∨
      (∃ cfg out err, (run env).trace =
        startEvents cfg out ++ [.recvServerError err, .log .completed]) ∨
      (∃ cfg out sig ctx, (run env).trace =
        startEvents cfg out ++ [.recvSignal sig, .log (.startShutdown sig),
          .shutdown ctx none, .cancel, .log .completed]) ∨
      (∃ cfg out sig ctx d c, (run env).trace =
        startEvents cfg out ++ [.recvSignal sig, .log (.startShutdown sig),
          .shutdown ctx (some d), .close c, .cancel, .log .completed]) := by
  cases hp : env.parse with
  | error p =>
    rcases run_trace_of_parse_error env p hp with h | ⟨t, _, _, h⟩ | ⟨t, _, _, h⟩
    · exact Or.inl h
    · exact Or.inr (Or.inl ⟨t, h⟩)
    · exact Or.inr (Or.inr (Or.inl ⟨t, h⟩))
  | ok o =>
    rw [run_of_parse_ok env o hp]
    cases hc : env.confString with
    | error e => simp [runBody, hc]
    | ok out =>
      rw [runBody_of_confString_ok env _ out hc]
      cases hs : env.selected with
      | serverError err =>
        refine Or.inr (Or.inr (Or.inr (Or.inr (Or.inl ⟨parsedCfg o, out, err, ?_⟩))))
        simp [awaitShutdown, startEvents]
      | signal sig =>
        cases hsh : env.shutdown with
        | none =>
          refine Or.inr (Or.inr (Or.inr (Or.inr (Or.inr (Or.inl
            ⟨parsedCfg o, out, sig, withTimeout env.now (parsedCfg o).Web.ShutdownTimeout,
              ?_⟩)))))
          simp [awaitShutdown, startEvents, hsh]
        | some d =>
          refine Or.inr (Or.inr (Or.inr (Or.inr (Or.inr (Or.inr
            ⟨parsedCfg o, out, sig, withTimeout env.now (parsedCfg o).Web.ShutdownTimeout,
              d, env.close, ?_⟩)))))
          simp [awaitShutdown, startEvents, hsh]

/-! ## Auxiliary facts about the three parties -/

/-- The events from the `select` to the return of `run` hold exactly one
receive. -/
theorem awaitShutdown_one_recv (env : Env) (cfg : Cfg) (sel : Selected) :
    (awaitShutdown env cfg sel).trace.countP Event.isRecv = 1 := by
  cases sel with
  | serverError err => simp [awaitShutdown, Event.isRecv]
  | signal sig =>
    cases h : env.shutdown <;> simp [awaitShutdown, h, Event.isRecv, List.countP_cons]

theorem inv_init : Inv init := by
  simp [Inv, init]

/-- Every turn keeps `Inv`. -/
theorem inv_step (env : Env) (cfg : Cfg) (s t : State) (a : Action)
    (hinv : Inv s) (hstep : step env cfg s a = some t) : Inv t := by
  obtain ⟨h1, h2, h3⟩ := hinv
  cases a with
  | listenerLog =>
    cases hl : s.listener <;> simp [step, hl] at hstep
    subst hstep
    refine ⟨?_, ?_, ?_⟩
    · intro err he
      have := h1 err he
      simp [hl] at this
    · intro hm
      simp [List.countP_append, Event.isRecv, h2 hm]
    · intro r hm
      simp [List.countP_append, Event.isRecv, h3 r hm]
  | listenerReturns err =>
    cases hl : s.listener <;> simp [step, hl] at hstep
    subst hstep
    refine ⟨?_, h2, h3⟩
    intro e he
    have := h1 e he
    simp [hl] at this
  | listenerSend =>
    cases hl : s.listener <;> cases hb : s.serverErrors <;> simp [step, hl, hb] at hstep
    subst hstep
    exact ⟨fun _ _ => rfl, h2, h3⟩
  | deliver sig =>
    cases hb : s.shutdown <;> simp [step, hb] at hstep <;> subst hstep
    · exact ⟨h1, h2, h3⟩
    · exact ⟨h1, h2, h3⟩
  | selectError =>
    cases hm : s.main <;> cases hb : s.serverErrors <;> simp [step, hm, hb] at hstep
    subst hstep
    refine ⟨by simp, by simp, ?_⟩
    intro r _
    simp [List.countP_append, h2 hm, awaitShutdown_one_recv, Event.isRecv]
  | selectSignal =>
    cases hm : s.main <;> cases hb : s.shutdown <;> simp [step, hm, hb] at hstep
    subst hstep
    refine ⟨h1, by simp, ?_⟩
    intro r _
    simp [List.countP_append, h2 hm, awaitShutdown_one_recv, Event.isRecv]

/-- A list of turns keeps `Inv`. -/
theorem inv_exec (env : Env) (cfg : Cfg) (acts : List Action) :
    ∀ s t : State, Inv s → exec env cfg s acts = some t → Inv t := by
  induction acts with
  | nil =>
    intro s t hinv h
    simp [exec] at h
    exact h ▸ hinv
  | cons a rest ih =>
    intro s t hinv h
    cases hs : step env cfg s a with
    | none => simp [exec, hs] at h
    | some u =>
      simp [exec, hs] at h
      exact ih u t (inv_step env cfg s u a hinv hs) h

theorem inv_of_reachable (env : Env) (cfg : Cfg) (s : State) (h : Reachable env cfg s) :
    Inv s := by
  obtain ⟨acts, hacts⟩ := h
  exact inv_exec env cfg acts init s inv_init hacts

/-- The two lists that make up the line of the goroutine. -/
theorem split_listenerLine (cfg : Cfg) (pc : ListenerPc) (front back : List Event)
    (h : front ++ back = listenerLine cfg pc) :
    (front = [] ∧ back = []) ∨
      (front = [.log (.listening cfg.Web.APIHost)] ∧ back = []) ∨
      (front = [] ∧ back = [.log (.listening cfg.Web.APIHost)]) := by
  cases front with
  | nil =>
    cases back with
    | nil => exact Or.inl ⟨rfl, rfl⟩
    | cons b back =>
      cases pc <;> simp [listenerLine] at h <;> simp [h]
  | cons a front =>
    cases pc <;> simp [listenerLine] at h <;> simp [h]

theorem traceInv_init (env : Env) (cfg : Cfg) : TraceInv env cfg init := by
  simp [TraceInv, init, listenerLine]

/-- Every turn keeps `TraceInv`. -/
theorem traceInv_step (env : Env) (cfg : Cfg) (s t : State) (a : Action)
    (hinv : Inv s) (htr : TraceInv env cfg s) (hstep : step env cfg s a = some t) :
    TraceInv env cfg t := by
  obtain ⟨h1, _, _⟩ := hinv
  obtain ⟨t1, t2⟩ := htr
  cases a with
  | listenerLog =>
    cases hl : s.listener <;> simp [step, hl] at hstep
    subst hstep
    refine ⟨?_, ?_⟩
    · intro hm
      have := t1 hm
      simp [hl, listenerLine] at this
      simp [this, listenerLine]
    · intro r hm
      obtain ⟨sel, front, back, hr, htrace, hline, hsel⟩ := t2 r hm
      simp [hl, listenerLine] at hline
      obtain ⟨rfl, rfl⟩ := hline
      refine ⟨sel, [], [.log (.listening cfg.Web.APIHost)], hr, ?_, by simp [listenerLine], ?_⟩
      · simp [htrace]
      · intro err he
        have := (hsel err he).1
        simp [hl] at this
  | listenerReturns err =>
    cases hl : s.listener <;> simp [step, hl] at hstep
    subst hstep
    refine ⟨?_, ?_⟩
    · intro hm
      have := t1 hm
      simp [hl, listenerLine] at this
      simp [this, listenerLine]
    · intro r hm
      obtain ⟨sel, front, back, hr, htrace, hline, hsel⟩ := t2 r hm
      refine ⟨sel, front, back, hr, htrace, ?_, ?_⟩
      · simpa [hl, listenerLine] using hline
      · intro e he
        have := (hsel e he).1
        simp [hl] at this
  | listenerSend =>
    cases hl : s.listener <;> cases hb : s.serverErrors <;> simp [step, hl, hb] at hstep
    subst hstep
    refine ⟨?_, ?_⟩
    · intro hm
      have := t1 hm
      simp [hl, listenerLine] at this
      simp [this, listenerLine]
    · intro r hm
      obtain ⟨sel, front, back, hr, htrace, hline, hsel⟩ := t2 r hm
      refine ⟨sel, front, back, hr, htrace, ?_, ?_⟩
      · simpa [hl, listenerLine] using hline
      · intro e he
        exact ⟨rfl, (hsel e he).2⟩
  | deliver sig =>
    cases hb : s.shutdown <;> simp [step, hb] at hstep <;> subst hstep
    · exact ⟨t1, t2⟩
    · exact ⟨t1, t2⟩
  | selectError =>
    cases hm : s.main <;> cases hb : s.serverErrors <;> simp [step, hm, hb] at hstep
    subst hstep
    rename_i err
    refine ⟨by simp, ?_⟩
    intro r hr
    simp at hr
    refine ⟨.serverError err, s.trace, [], hr.symm, by simp, by simp [t1 hm], ?_⟩
    intro e _
    exact ⟨h1 err hb, rfl⟩
  | selectSignal =>
    cases hm : s.main <;> cases hb : s.shutdown <;> simp [step, hm, hb] at hstep
    subst hstep
    rename_i sig
    refine ⟨by simp, ?_⟩
    intro r hr
    simp at hr
    refine ⟨.signal sig, s.trace, [], hr.symm, by simp, by simp [t1 hm], ?_⟩
    intro e he
    cases he

/-- A list of turns keeps `Inv` and `TraceInv`. -/
theorem traceInv_exec (env : Env) (cfg : Cfg) (acts : List Action) :
    ∀ s t : State, Inv s → TraceInv env cfg s → exec env cfg s acts = some t →
      TraceInv env cfg t := by
  induction acts with
  | nil =>
    intro s t _ htr h
    simp [exec] at h
    exact h ▸ htr
  | cons a rest ih =>
    intro s t hinv htr h
    cases hs : step env cfg s a with
    | none => simp [exec, hs] at h
    | some u =>
      simp [exec, hs] at h
      exact ih u t (inv_step env cfg s u a hinv hs) (traceInv_step env cfg s u a hinv htr hs) h

/-- An execution without a parsed configuration is that of `run`. -/
theorem runWithListener_of_parse_error (env : Env) (acts : List Action) (p : GoError)
    (hp : env.parse = .error p) : runWithListener env acts = some (run env) := by
  simp [runWithListener, hp]

/-- An execution whose configuration cannot be printed is that of `run`. -/
theorem runWithListener_of_confString_error (env : Env) (acts : List Action)
    (o : Overrides) (e : GoError) (hp : env.parse = .ok o) (hc : env.confString = .error e) :
    runWithListener env acts = some (run env) := by
  simp [runWithListener, hp, hc]

/-- The shape of an execution that starts the goroutine. -/
theorem runWithListener_shape (env : Env) (acts : List Action) (out : Outcome)
    (o : Overrides) (text : String) (hp : env.parse = .ok o)
    (hc : env.confString = .ok text) (hrun : runWithListener env acts = some out) :
    ∃ sel front back,
      out.ret = (awaitShutdown env (parsedCfg o) sel).ret ∧
      out.trace = startEvents (parsedCfg o) text ++
        (front ++ (awaitShutdown env (parsedCfg o) sel).trace ++ [.log .completed] ++ back) ∧
      ((front = [] ∧ back = []) ∨
        (front = [.log (.listening (parsedCfg o).Web.APIHost)] ∧ back = []) ∨
        (front = [] ∧ back = [.log (.listening (parsedCfg o).Web.APIHost)])) ∧
      (∀ err, sel = .serverError err →
        front = [.log (.listening (parsedCfg o).Web.APIHost)] ∧ back = []) := by
  simp only [runWithListener, hp, hc] at hrun
  cases hex : exec env (parsedCfg o) init acts with
  | none => simp [hex] at hrun
  | some s =>
    cases hm : s.main with
    | atSelect => simp [hex, hm] at hrun
    | returned r =>
      simp [hex, hm] at hrun
      have htr := traceInv_exec env (parsedCfg o) acts init s inv_init
        (traceInv_init env (parsedCfg o)) hex
      obtain ⟨sel, front, back, hr, htrace, hline, hsel⟩ := htr.2 r hm
      refine ⟨sel, front, back, ?_, ?_, split_listenerLine _ _ _ _ hline, ?_⟩
      · rw [← hrun]; exact hr
      · rw [← hrun, htrace]
      · intro err he
        obtain ⟨hexit, hback⟩ := hsel err he
        subst hback
        simpa [hexit, listenerLine] using hline

/-! ## The log of the main flow alone -/

/-- The lines that the main flow of control of `run` writes, the line of the
goroutine left aside, on each path of `run`. -/
theorem main_flow_log (env : Env) :
    (∀ o, env.parse = .ok o →
        (logged (run env).trace).getLast? = some .completed ∧
        ((logged (run env).trace).map LogLine.text).getLast? = some "main: Completed") ∧
      (∀ o e, env.parse = .ok o → env.confString = .error e →
        logged (run env).trace = [.completed]) ∧
      (∀ err, Event.recvServerError err ∈ (run env).trace →
        ∃ out, env.confString = .ok out ∧
          logged (run env).trace = [.config out, .initAPI, .completed]) ∧
      (∀ sig, Event.recvSignal sig ∈ (run env).trace →
        ∃ out, env.confString = .ok out ∧
          logged (run env).trace =
            [.config out, .initAPI, .startShutdown sig, .completed] ∧
          (logged (run env).trace).map LogLine.text =
            ["main: Config :\n" ++ out, "main: Initializing API support",
             "main: " ++ sig.String ++ " : Start shutdown", "main: Completed"]) ∧
      (∀ p, env.parse = .error p →
        LogLine.completed ∉ logged (run env).trace ∧
        (logged (run env).trace = [] ∨
          (∃ text, env.usage = .ok text ∧ logged (run env).trace = [.usage text]) ∨
          (∃ text, env.version = .ok text ∧ logged (run env).trace = [.version text]))) := by
  refine ⟨?_, ?_, ?_, ?_, ?_⟩
  · intro o hp
    rw [logged_run_of_parse_ok env o hp]
    simp [LogLine.text]
  · intro o e hp hc
    rw [logged_run_of_parse_ok env o hp]
    simp [runBody, hc, logged]
  · intro err hmem
    obtain ⟨o, out, hp, hc, hs⟩ := (recvServerError_mem_iff env err).mp hmem
    refine ⟨out, hc, ?_⟩
    rw [logged_run_of_parse_ok env o hp, runBody_of_confString_ok env _ out hc]
    simp [awaitShutdown, hs, logged]
  · intro sig hmem
    obtain ⟨o, out, hp, hc, hs⟩ := (recvSignal_mem_iff env sig).mp hmem
    refine ⟨out, hc, ?_⟩
    rw [logged_run_of_parse_ok env o hp, runBody_of_confString_ok env _ out hc]
    cases hsh : env.shutdown <;> simp [awaitShutdown, hs, hsh, logged, LogLine.text]
  · intro p hp
    rcases run_trace_of_parse_error env p hp with h | ⟨t, hu, _, h⟩ | ⟨t, hv, _, h⟩
    · simp [h, logged]
    · simp [h, logged, hu]
    · simp [h, logged, hv]

/-! ## The listener fails (C1) -/

/-- C1: when the `select` of `run` takes the case of `serverErrors` and the
value received is an error `e` that is not `nil`, `run` returns an error that
is not `nil`, whose cause is `e` and whose message is `server error: ` followed
by the message of `e`; no signal is received and neither `api.Shutdown` nor
`api.Close` is called. -/
theorem server_error_is_returned (env : Env) (e : GoError)
    (hsel : Event.recvServerError (some e) ∈ (run env).trace) :
    (∃ r, (run env).ret = some r ∧ r.Cause = some e ∧
        r.Error = "server error: " ++ e.Error) ∧
      (∀ sig, Event.recvSignal sig ∉ (run env).trace) ∧
      (∀ ctx res, Event.shutdown ctx res ∉ (run env).trace) ∧
      (∀ res, Event.close res ∉ (run env).trace) := by
  obtain ⟨o, out, hp, hc, hs⟩ := (recvServerError_mem_iff env (some e)).mp hsel
  rw [run_of_parse_ok env o hp, runBody_of_confString_ok env _ out hc]
  simp [awaitShutdown, hs, errorsWrap, GoError.Cause, GoError.Error]

theorem server_error_is_returned_witness :
    Event.recvServerError (some bindError) ∈ (run envListenFails).trace ∧
      ∃ r, (run envListenFails).ret = some r ∧ r.Cause = some bindError ∧
        r.Error = "server error: " ++ bindError.Error :=
  ⟨by decide, (server_error_is_returned envListenFails bindError (by decide)).1⟩

/-! ## The shutdown signal (C2, C3) -/

/-- C2: when the configuration parses, the `select` of `run` takes the case of
the shutdown signal and `api.Shutdown` returns `nil`, `run` returns `nil`.
A signal is received only in executions whose configuration parsed. -/
theorem clean_drain_returns_nil (env : Env) (sig : Signal)
    (hsel : Event.recvSignal sig ∈ (run env).trace) (hdrain : env.shutdown = none) :
    (∃ o, env.parse = .ok o) ∧ (run env).ret = none := by
  obtain ⟨o, out, hp, hc, hs⟩ := (recvSignal_mem_iff env sig).mp hsel
  refine ⟨⟨o, hp⟩, ?_⟩
  rw [run_of_parse_ok env o hp, runBody_of_confString_ok env _ out hc]
  simp [awaitShutdown, hs, hdrain]

theorem clean_drain_returns_nil_witness :
    Event.recvSignal .interrupt ∈ (run envCleanDrain).trace ∧
      envCleanDrain.shutdown = none ∧ (run envCleanDrain).ret = none :=
  ⟨by decide, rfl, (clean_drain_returns_nil envCleanDrain .interrupt (by decide) rfl).2⟩

/-- C3: when the `select` of `run` takes the case of the shutdown signal and
`api.Shutdown` returns an error `d` that is not `nil`, `api.Close` is called
right after `api.Shutdown` has returned, and `run` returns an error whose cause
is `d` and whose message is `could not stop server gracefully: ` followed by the
message of `d`; whatever `api.Close` returns, `run` returns the same. -/
theorem drain_failure_closes_and_wraps (env : Env) (sig : Signal) (d : GoError)
    (hsel : Event.recvSignal sig ∈ (run env).trace) (hdrain : env.shutdown = some d) :
    (∃ r, (run env).ret = some r ∧ r.Cause = some d ∧
        r.Error = "could not stop server gracefully: " ++ d.Error) ∧
      (∃ before ctx after, (run env).trace =
        before ++ [Event.shutdown ctx (some d), Event.close env.close] ++ after) ∧
      (∀ c : Error, (run { env with close := c }).ret = (run env).ret) := by
  obtain ⟨o, out, hp, hc, hs⟩ := (recvSignal_mem_iff env sig).mp hsel
  refine ⟨?_, ?_, ?_⟩
  · rw [run_of_parse_ok env o hp, runBody_of_confString_ok env _ out hc]
    simp [awaitShutdown, hs, hdrain, errorsWrap, GoError.Cause, GoError.Error]
  · rw [run_of_parse_ok env o hp, runBody_of_confString_ok env _ out hc]
    refine ⟨[.log (.config out), .log .initAPI, .notify,
      .spawnListener ⟨(parsedCfg o).Web.APIHost, (parsedCfg o).Web.ReadTimeout,
        (parsedCfg o).Web.WriteTimeout⟩ tlsCertPath tlsKeyPATH,
      .recvSignal sig, .log (.startShutdown sig)],
      withTimeout env.now (parsedCfg o).Web.ShutdownTimeout, [.cancel, .log .completed], ?_⟩
    simp [awaitShutdown, hs, hdrain]
  · intro c
    rw [run_of_parse_ok env o hp, runBody_of_confString_ok env _ out hc,
      run_of_parse_ok { env with close := c } o hp,
      runBody_of_confString_ok { env with close := c } _ out hc]
    simp [awaitShutdown, hs, hdrain]

theorem drain_failure_closes_and_wraps_witness :
    Event.recvSignal .terminated ∈ (run envDrainTimeout).trace ∧
      envDrainTimeout.shutdown = some deadlineExceeded ∧
      ∃ r, (run envDrainTimeout).ret = some r ∧ r.Cause = some deadlineExceeded ∧
        r.Error = "could not stop server gracefully: " ++ deadlineExceeded.Error :=
  ⟨by decide, rfl,
    (drain_failure_closes_and_wraps envDrainTimeout .terminated deadlineExceeded
      (by decide) rfl).1⟩

/-! ## The exit status (C4) -/

/-- C4: `main` exits with status 1 exactly when `run` returns an error that is
not `nil`, and with status 0 otherwise.  The status is 0 when the usage or the
version text was displayed and when the drain that a signal started ended
without error; it is 1 when `conf.Parse` fails with an error other than the two
requests, when `conf.String` fails, when the listener's error is the event
taken, and when the drain fails. -/
theorem exit_status (env : Env) :
    ((main env).status = 1 ↔ (run env).ret ≠ none) ∧
      ((main env).status = 0 ↔ (run env).ret = none) ∧
      (∀ text, Event.log (.usage text) ∈ (run env).trace → (main env).status = 0) ∧
      (∀ text, Event.log (.version text) ∈ (run env).trace → (main env).status = 0) ∧
      (∀ ctx, Event.shutdown ctx none ∈ (run env).trace → (main env).status = 0) ∧
      (∀ p, env.parse = .error p → p ≠ .errHelpWanted → p ≠ .errVersionWanted →
        (main env).status = 1) ∧
      (∀ o e, env.parse = .ok o → env.confString = .error e → (main env).status = 1) ∧
      (∀ e, Event.recvServerError (some e) ∈ (run env).trace → (main env).status = 1) ∧
      (∀ ctx d, Event.shutdown ctx (some d) ∈ (run env).trace → (main env).status = 1) := by
  have hstatus : ∀ r, (run env).ret = r →
      (main env).status = if r = none then 0 else 1 := by
    intro r hr
    cases r <;> simp [main, hr]
  refine ⟨?_, ?_, ?_, ?_, ?_, ?_, ?_, ?_, ?_⟩
  · rw [hstatus _ rfl]; split <;> simp_all
  · rw [hstatus _ rfl]; split <;> simp_all
  · intro text hmem
    rw [hstatus _ rfl]
    cases hp : env.parse with
    | error p =>
      rcases run_trace_of_parse_error env p hp with h | ⟨t, hu, rfl, h⟩ | ⟨t, _, _, h⟩
      · simp [h] at hmem
      · simp [run, hp, hu]
      · simp [h] at hmem
    | ok o =>
      exfalso
      rw [run_of_parse_ok env o hp] at hmem
      cases hc : env.confString with
      | error e => simp [runBody, hc] at hmem
      | ok out =>
        rw [runBody_of_confString_ok env _ out hc] at hmem
        cases hs : env.selected <;> cases hsh : env.shutdown <;>
          simp [awaitShutdown, hs, hsh] at hmem
  · intro text hmem
    rw [hstatus _ rfl]
    cases hp : env.parse with
    | error p =>
      rcases run_trace_of_parse_error env p hp with h | ⟨t, _, _, h⟩ | ⟨t, hv, rfl, h⟩
      · simp [h] at hmem
      · simp [h] at hmem
      · simp [run, hp, hv]
    | ok o =>
      exfalso
      rw [run_of_parse_ok env o hp] at hmem
      cases hc : env.confString with
      | error e => simp [runBody, hc] at hmem
      | ok out =>
        rw [runBody_of_confString_ok env _ out hc] at hmem
        cases hs : env.selected <;> cases hsh : env.shutdown <;>
          simp [awaitShutdown, hs, hsh] at hmem
  · intro ctx hmem
    rw [hstatus _ rfl]
    cases hp : env.parse with
    | error p =>
      rcases run_trace_of_parse_error env p hp with h | ⟨t, _, _, h⟩ | ⟨t, _, _, h⟩ <;>
        simp [h] at hmem
    | ok o =>
      rw [run_of_parse_ok env o hp] at hmem ⊢
      cases hc : env.confString with
      | error e => simp [runBody, hc] at hmem
      | ok out =>
        rw [runBody_of_confString_ok env _ out hc] at hmem ⊢
        cases hs : env.selected <;> cases hsh : env.shutdown <;>
          simp [awaitShutdown, hs, hsh] at hmem ⊢
  · intro p hp hh hv
    rw [hstatus _ rfl]
    cases p <;> simp_all [run, errorsWrap]
  · intro o e hp hc
    rw [hstatus _ rfl, run_of_parse_ok env o hp]
    simp [runBody, hc, errorsWrap]
  · intro e hmem
    rw [hstatus _ rfl]
    obtain ⟨r, hr, _⟩ := (server_error_returns env e hmem)
    simp [hr]
  · intro ctx d hmem
    rw [hstatus _ rfl]
    cases hp : env.parse with
    | error p =>
      rcases run_trace_of_parse_error env p hp with h | ⟨t, _, _, h⟩ | ⟨t, _, _, h⟩ <;>
        simp [h] at hmem
    | ok o =>
      rw [run_of_parse_ok env o hp] at hmem ⊢
      cases hc : env.confString with
      | error e => simp [runBody, hc] at hmem
      | ok out =>
        rw [runBody_of_confString_ok env _ out hc] at hmem ⊢
        cases hs : env.selected <;> cases hsh : env.shutdown <;>
          simp [awaitShutdown, hs, hsh, errorsWrap] at hmem ⊢

/-! ## Help and version requests (C5) -/

/-- C5: help and version requests are not errors.  `conf.Usage` and
`conf.VersionString` fail only on a configuration struct that is not well
formed, and the struct of lines 37-45 is fixed and well formed, so both return
their text.  Then, whenever `conf.Parse` returns `conf.ErrHelpWanted` or
`conf.ErrVersionWanted`, `run` returns `nil` and the process exits with status
0; `run` has logged the usage text, respectively the version text, and nothing
else; no signal handling is registered and no listener is started. -/
theorem help_and_version_are_not_errors (env : Env)
    (husage : ∃ text, env.usage = .ok text) (hversion : ∃ text, env.version = .ok text)
    (hreq : env.parse = .error .errHelpWanted ∨ env.parse = .error .errVersionWanted) :
    (run env).ret = none ∧
      (main env).status = 0 ∧
      (env.parse = .error .errHelpWanted →
        ∃ text, env.usage = .ok text ∧ (run env).trace = [.log (.usage text)]) ∧
      (env.parse = .error .errVersionWanted →
        ∃ text, env.version = .ok text ∧ (run env).trace = [.log (.version text)]) ∧
      Event.notify ∉ (run env).trace ∧
      (∀ api c k, Event.spawnListener api c k ∉ (run env).trace) := by
  obtain ⟨utext, hu⟩ := husage
  obtain ⟨vtext, hv⟩ := hversion
  rcases hreq with hp | hp
  · simp [main, run, hp, hu]
  · simp [main, run, hp, hv]

theorem help_and_version_are_not_errors_witness :
    (envHelp.parse = .error .errHelpWanted ∨ envHelp.parse = .error .errVersionWanted) ∧
      (run envHelp).ret = none ∧ (main envHelp).status = 0 :=
  ⟨Or.inl rfl,
    (help_and_version_are_not_errors envHelp ⟨_, rfl⟩ ⟨_, rfl⟩ (Or.inl rfl)).1,
    (help_and_version_are_not_errors envHelp ⟨_, rfl⟩ ⟨_, rfl⟩ (Or.inl rfl)).2.1⟩

/-! ## A configuration that does not parse (C6) -/

/-- C6: when `conf.Parse` returns an error `p` that is neither
`conf.ErrHelpWanted` nor `conf.ErrVersionWanted`, `run` returns an error whose
cause is `p` and whose message is `parsing config: ` followed by the message of
`p`, the process exits with status 1, and `run` does nothing else: no signal
channel is registered and no listener is started. -/
theorem parse_error_is_fatal (env : Env) (p : GoError) (hparse : env.parse = .error p)
    (hhelp : p ≠ .errHelpWanted) (hversion : p ≠ .errVersionWanted) :
    (∃ r, (run env).ret = some r ∧ r.Cause = some p ∧
        r.Error = "parsing config: " ++ p.Error) ∧
      (main env).status = 1 ∧
      (run env).trace = [] ∧
      Event.notify ∉ (run env).trace ∧
      (∀ api c k, Event.spawnListener api c k ∉ (run env).trace) := by
  cases p with
  | errHelpWanted => exact absurd rfl hhelp
  | errVersionWanted => exact absurd rfl hversion
  | plain msg => simp [main, run, hparse, errorsWrap, GoError.Cause, GoError.Error]
  | wrapped cause msg => simp [main, run, hparse, errorsWrap, GoError.Cause, GoError.Error]

theorem parse_error_is_fatal_witness :
    envBadDuration.parse = .error badDuration ∧
      (∃ r, (run envBadDuration).ret = some r ∧ r.Cause = some badDuration ∧
        r.Error = "parsing config: " ++ badDuration.Error) ∧
      (main envBadDuration).status = 1 :=
  ⟨rfl,
    (parse_error_is_fatal envBadDuration badDuration rfl (by decide) (by decide)).1,
    (parse_error_is_fatal envBadDuration badDuration rfl (by decide) (by decide)).2.1⟩

/-! ## The configured values (C7) -/

/-- C7: when the configuration parses, the server that `run` starts has the
address, the read timeout and the write timeout of the parsed configuration,
and the context given to `api.Shutdown` has its deadline exactly
`Web.ShutdownTimeout` after the reading of the clock taken at line 116, when
the signal is handled; a server is started whenever the configuration can be
printed; every overridden field holds its override, and with no overrides the
four values are `0.0.0.0:443`, 5s, 5s and 5s. -/
theorem configured_values_are_used (env : Env) (o : Overrides)
    (hparse : env.parse = .ok o) :
    (∀ api c k, Event.spawnListener api c k ∈ (run env).trace →
        api.Addr = (parsedCfg o).Web.APIHost ∧
        api.ReadTimeout = (parsedCfg o).Web.ReadTimeout ∧
        api.WriteTimeout = (parsedCfg o).Web.WriteTimeout ∧
        c = tlsCertPath ∧ k = tlsKeyPATH) ∧
      (∀ ctx res, Event.shutdown ctx res ∈ (run env).trace →
        ctx.deadline - env.now = (parsedCfg o).Web.ShutdownTimeout) ∧
      (∀ out, env.confString = .ok out →
        ∃ api c k, Event.spawnListener api c k ∈ (run env).trace) ∧
      (∀ sig, Event.recvSignal sig ∈ (run env).trace →
        ∃ ctx, Event.shutdown ctx env.shutdown ∈ (run env).trace) ∧
      (∀ h, o.APIHost = some h → (parsedCfg o).Web.APIHost = h) ∧
      (∀ d, o.ReadTimeout = some d → (parsedCfg o).Web.ReadTimeout = d) ∧
      (∀ d, o.WriteTimeout = some d → (parsedCfg o).Web.WriteTimeout = d) ∧
      (∀ d, o.ShutdownTimeout = some d → (parsedCfg o).Web.ShutdownTimeout = d) ∧
      (o = noOverrides → (parsedCfg o).Web =
        { APIHost := "0.0.0.0:443", ReadTimeout := 5 * second,
          WriteTimeout := 5 * second, ShutdownTimeout := 5 * second }) := by
  rw [run_of_parse_ok env o hparse]
  refine ⟨?_, ?_, ?_, ?_, ?_, ?_, ?_, ?_, ?_⟩
  · intro api c k hmem
    cases hc : env.confString with
    | error e => simp [runBody, hc] at hmem
    | ok out =>
      rw [runBody_of_confString_ok env _ out hc] at hmem
      cases hs : env.selected <;> cases hsh : env.shutdown <;>
        simp [awaitShutdown, hs, hsh] at hmem <;>
        obtain ⟨rfl, rfl, rfl⟩ := hmem <;> simp
  · intro ctx res hmem
    cases hc : env.confString with
    | error e => simp [runBody, hc] at hmem
    | ok out =>
      rw [runBody_of_confString_ok env _ out hc] at hmem
      cases hs : env.selected <;> cases hsh : env.shutdown <;>
        simp [awaitShutdown, hs, hsh] at hmem <;>
        obtain ⟨rfl, _⟩ := hmem <;> simp [withTimeout]
  · intro out hc
    rw [runBody_of_confString_ok env _ out hc]
    exact ⟨⟨(parsedCfg o).Web.APIHost, (parsedCfg o).Web.ReadTimeout,
      (parsedCfg o).Web.WriteTimeout⟩, tlsCertPath, tlsKeyPATH, by simp⟩
  · intro sig hmem
    cases hc : env.confString with
    | error e => simp [runBody, hc] at hmem
    | ok out =>
      rw [runBody_of_confString_ok env _ out hc] at hmem ⊢
      cases hs : env.selected <;> cases hsh : env.shutdown <;>
        simp [awaitShutdown, hs, hsh] at hmem ⊢
  · intro h hh; simp [parsedCfg, hh]
  · intro d hd; simp [parsedCfg, hd]
  · intro d hd; simp [parsedCfg, hd]
  · intro d hd; simp [parsedCfg, hd]
  · rintro rfl; simp [parsedCfg, noOverrides]

theorem configured_values_are_used_witness :
    envDrainTimeout.parse = .ok noOverrides ∧
      (∀ api c k, Event.spawnListener api c k ∈ (run envDrainTimeout).trace →
        api.Addr = "0.0.0.0:443" ∧ api.ReadTimeout = 5000000000 ∧
        api.WriteTimeout = 5000000000 ∧
        c = "/certs/webhook.crt" ∧ k = "/certs/webhook-key.pem") ∧
      (∀ ctx res, Event.shutdown ctx res ∈ (run envDrainTimeout).trace →
        ctx.deadline - 1000 = 5000000000) :=
  ⟨rfl, (configured_values_are_used envDrainTimeout noOverrides rfl).1,
    (configured_values_are_used envDrainTimeout noOverrides rfl).2.1⟩

/-! ## Graceful shutdown and force close happen at most once (C9) -/

/-- C9: in every execution of `run`, `api.Shutdown` is called at most once and
`api.Close` at most once; a call of `api.Close` comes only after a call of
`api.Shutdown` that returned an error other than `nil`; neither is called when
the `select` takes the listener's error, nor in an execution that starts no
listener. -/
theorem shutdown_and_close_at_most_once (env : Env) :
    (run env).trace.countP Event.isShutdown ≤ 1 ∧
      (run env).trace.countP Event.isClose ≤ 1 ∧
      (∀ before c after, (run env).trace = before ++ Event.close c :: after →
        ∃ ctx d, Event.shutdown ctx (some d) ∈ before) ∧
      ((∃ e, Event.recvServerError e ∈ (run env).trace) →
        ∀ ev ∈ (run env).trace, ev.isShutdown = false ∧ ev.isClose = false) ∧
      ((∀ api c k, Event.spawnListener api c k ∉ (run env).trace) →
        ∀ ev ∈ (run env).trace, ev.isShutdown = false ∧ ev.isClose = false) := by
  have hshape := run_trace_shapes env
  generalize (run env).trace = t at hshape
  rcases hshape with h | ⟨text, h⟩ | ⟨text, h⟩ | h | ⟨cfg, out, err, h⟩ |
    ⟨cfg, out, sig, ctx, h⟩ | ⟨cfg, out, sig, ctx, d, c0, h⟩
  · subst h
    simp [Event.isShutdown, Event.isClose]
  · subst h
    refine ⟨by simp [Event.isShutdown], by simp [Event.isClose], ?_,
      by simp [Event.isShutdown, Event.isClose], by simp [Event.isShutdown, Event.isClose]⟩
    intro before c after heq
    have hmem : Event.close c ∈ ([Event.log (LogLine.usage text)] : List Event) := by rw [heq]; simp
    simp at hmem
  · subst h
    refine ⟨by simp [Event.isShutdown], by simp [Event.isClose], ?_,
      by simp [Event.isShutdown, Event.isClose], by simp [Event.isShutdown, Event.isClose]⟩
    intro before c after heq
    have hmem : Event.close c ∈ ([Event.log (LogLine.version text)] : List Event) := by rw [heq]; simp
    simp at hmem
  · subst h
    refine ⟨by simp [Event.isShutdown], by simp [Event.isClose], ?_,
      by simp [Event.isShutdown, Event.isClose], by simp [Event.isShutdown, Event.isClose]⟩
    intro before c after heq
    have hmem : Event.close c ∈ ([Event.log LogLine.completed] : List Event) := by rw [heq]; simp
    simp at hmem
  · subst h
    refine ⟨by simp [startEvents, Event.isShutdown], by simp [startEvents, Event.isClose],
      ?_, ?_, ?_⟩
    · intro before c after heq
      have hmem : Event.close c ∈ startEvents cfg out ++
          [Event.recvServerError err, Event.log LogLine.completed] := by rw [heq]; simp
      simp [startEvents] at hmem
    · intro _ ev hev
      simp [startEvents] at hev
      rcases hev with h | h | h | h | h | h <;> simp [h, Event.isShutdown, Event.isClose]
    · intro hno
      exact absurd (by simp [startEvents]) (hno ⟨cfg.Web.APIHost, cfg.Web.ReadTimeout,
        cfg.Web.WriteTimeout⟩ tlsCertPath tlsKeyPATH)
  · subst h
    refine ⟨by simp [startEvents, Event.isShutdown, List.countP_cons],
      by simp [startEvents, Event.isClose], ?_, ?_, ?_⟩
    · intro before c after heq
      have hmem : Event.close c ∈ startEvents cfg out ++
          [Event.recvSignal sig, Event.log (LogLine.startShutdown sig),
            Event.shutdown ctx none, Event.cancel, Event.log LogLine.completed] := by
        rw [heq]; simp
      simp [startEvents] at hmem
    · rintro ⟨e, he⟩
      simp [startEvents] at he
    · intro hno
      exact absurd (by simp [startEvents]) (hno ⟨cfg.Web.APIHost, cfg.Web.ReadTimeout,
        cfg.Web.WriteTimeout⟩ tlsCertPath tlsKeyPATH)
  · subst h
    refine ⟨by simp [startEvents, Event.isShutdown, List.countP_cons],
      by simp [startEvents, Event.isClose, List.countP_cons], ?_, ?_, ?_⟩
    · intro before c after heq
      have hsplit : (startEvents cfg out ++ [Event.recvSignal sig,
            Event.log (LogLine.startShutdown sig), Event.shutdown ctx (some d)]) ++
          [Event.close c0, Event.cancel, Event.log LogLine.completed] =
          before ++ Event.close c :: after := by
        rw [← heq]; simp
      obtain ⟨k, hk⟩ := front_before_first Event.isClose _ _ before after
        (Event.close c) (by simp [startEvents, Event.isClose]) rfl hsplit
      exact ⟨ctx, d, by simp [hk]⟩
    · rintro ⟨e, he⟩
      simp [startEvents] at he
    · intro hno
      exact absurd (by simp [startEvents]) (hno ⟨cfg.Web.APIHost, cfg.Web.ReadTimeout,
        cfg.Web.WriteTimeout⟩ tlsCertPath tlsKeyPATH)

/-! ## The race of the two events (C8) -/

/-- C8, as stated, fails: the listener fails to bind and its error is in the
buffer of `serverErrors` while the buffer of `shutdown` is still empty; then an
interrupt is raised; then the `select`, which finds both cases ready, takes the
case of the signal.  `run` returns `nil`, and the error of the listener, the
event that occurred first, is never received: it is still in the buffer. -/
theorem first_event_need_not_win :
    (exec envCleanDrain (parsedCfg noOverrides) init (errorThenSignal.take 3)).map
        (fun s => (s.serverErrors, s.shutdown, s.main)) =
        some (some (some bindError), none, MainPc.atSelect) ∧
      (exec envCleanDrain (parsedCfg noOverrides) init errorThenSignal).map
        (fun s => (s.main, s.serverErrors, s.trace.filter Event.isRecv)) =
        some (MainPc.returned none, some (some bindError),
          [Event.recvSignal Signal.interrupt]) := by
  constructor <;> decide

/-- C8, amended: in every state the goroutine, the operating system and the
main flow of control can reach, (1) the send of the goroutine on `serverErrors`
can proceed, so the goroutine can end; (2) while the main flow is at the
`select`, a value in either buffer lets the `select` take the case of that
channel, which makes `run` return and leaves the buffer of the other channel as
it is, so the other event is not observed, and when both buffers hold a value
either case may be taken, whichever value came first; (3) a case whose buffer
is empty cannot be taken; (4) the main flow has received at most one value; (5)
once `run` has returned, no case of the `select` can be taken again and the
value returned and the number of values received stay what they are. -/
theorem race_of_the_two_events (env : Env) (cfg : Cfg) (s : State)
    (hreach : Reachable env cfg s) :
    (∀ err, s.listener = .sending err →
        step env cfg s .listenerSend =
          some { s with listener := .exited, serverErrors := some err }) ∧
      (s.main = .atSelect → ∀ err, s.serverErrors = some err →
        ∃ t, step env cfg s .selectError = some t ∧
          t.main = .returned (errorsWrap err "server error") ∧
          t.shutdown = s.shutdown ∧
          t.trace = s.trace ++ [.recvServerError err, .log .completed]) ∧
      (s.main = .atSelect → ∀ sig, s.shutdown = some sig →
        ∃ t, step env cfg s .selectSignal = some t ∧
          t.main = .returned (awaitShutdown env cfg (.signal sig)).ret ∧
          t.serverErrors = s.serverErrors ∧
          t.trace = s.trace ++ (awaitShutdown env cfg (.signal sig)).trace ++
            [.log .completed]) ∧
      (s.serverErrors = none → step env cfg s .selectError = none) ∧
      (s.shutdown = none → step env cfg s .selectSignal = none) ∧
      s.trace.countP Event.isRecv ≤ 1 ∧
      (∀ r, s.main = .returned r →
        step env cfg s .selectError = none ∧ step env cfg s .selectSignal = none ∧
        ∀ a t, step env cfg s a = some t →
          t.main = .returned r ∧
          t.trace.countP Event.isRecv = s.trace.countP Event.isRecv) := by
  have hinv := inv_of_reachable env cfg s hreach
  obtain ⟨h1, h2, h3⟩ := hinv
  refine ⟨?_, ?_, ?_, ?_, ?_, ?_, ?_⟩
  · intro err hl
    cases hb : s.serverErrors with
    | none => simp [step, hl, hb]
    | some e =>
      have := h1 e hb
      simp [hl] at this
  · intro hm err hb
    simp [step, hm, hb, awaitShutdown]
  · intro hm sig hb
    simp [step, hm, hb]
  · intro hb
    cases hm : s.main <;> simp [step, hm, hb]
  · intro hb
    cases hm : s.main <;> simp [step, hm, hb]
  · cases hm : s.main with
    | atSelect => simp [h2 hm]
    | returned r => simp [h3 r hm]
  · intro r hm
    refine ⟨by simp [step, hm], by simp [step, hm], ?_⟩
    intro a t hstep
    cases a with
    | listenerLog =>
      cases hl : s.listener <;> simp [step, hl] at hstep
      subst hstep
      simp [hm, List.countP_append, Event.isRecv]
    | listenerReturns err =>
      cases hl : s.listener <;> simp [step, hl] at hstep
      subst hstep
      simp [hm]
    | listenerSend =>
      cases hl : s.listener <;> cases hb : s.serverErrors <;>
        simp [step, hl, hb] at hstep
      subst hstep
      simp [hm]
    | deliver sig =>
      cases hb : s.shutdown <;> simp [step, hb] at hstep <;> subst hstep <;> simp [hm]
    | selectError => simp [step, hm] at hstep
    | selectSignal => simp [step, hm] at hstep

theorem race_of_the_two_events_witness :
    Reachable envCleanDrain (parsedCfg noOverrides)
        { listener := .sending (some bindError), main := .atSelect, serverErrors := none,
          shutdown := some .interrupt,
          trace := [.log (.listening "0.0.0.0:443")] } ∧
      step envCleanDrain (parsedCfg noOverrides)
        { listener := .sending (some bindError), main := .atSelect, serverErrors := none,
          shutdown := some .interrupt,
          trace := [.log (.listening "0.0.0.0:443")] } .listenerSend =
        some { listener := .exited, main := .atSelect,
               serverErrors := some (some bindError), shutdown := some .interrupt,
               trace := [.log (.listening "0.0.0.0:443")] } :=
  ⟨⟨[.listenerLog, .deliver .interrupt, .listenerReturns (some bindError)], by decide⟩,
    (race_of_the_two_events envCleanDrain (parsedCfg noOverrides) _
      ⟨[.listenerLog, .deliver .interrupt, .listenerReturns (some bindError)],
        by decide⟩).1 (some bindError) rfl⟩

/-! ## The log (C10) -/

/-- C10, as stated, fails: an interrupt is raised and handled before the
goroutine of lines 99-102 runs for the first time, the drain ends without
error and `run` returns `nil`; the goroutine then writes its line with the
logger of `run`, so the last line logged is `main: API listening on
0.0.0.0:443` and not `main: Completed`. -/
theorem listener_line_can_follow_completed :
    (runWithListener envCleanDrain signalBeforeListener).map
        (fun out => (out.ret, (logged out.trace).map LogLine.text)) =
      some (none,
        ["main: Config :\n--web-api-host=0.0.0.0:443", "main: Initializing API support",
         "main: interrupt : Start shutdown", "main: Completed",
         "main: API listening on 0.0.0.0:443"]) := by
  decide

/-- C10, amended: in every execution that returns, with the line of the
goroutine (line 100) counted among the lines logged: when `conf.Parse`
succeeds, `main: Completed` is logged exactly once, it is the last line the
main flow writes, and the only line that can come after it is the line of the
goroutine; it is the last line of the log when the configuration cannot be
printed and when the `select` takes the listener's error, where the log is the
configuration, `main: Initializing API support`, the line of the goroutine and
`main: Completed`; when the `select` takes a signal the log contains, in this
order, the configuration, `main: Initializing API support`, the
`Start shutdown` line that names the signal, and `main: Completed`; when
`conf.Parse` fails, `main: Completed` is not logged: the log is empty or is the
usage or version text alone. -/
theorem completed_is_logged_last (env : Env) (acts : List Action) (out : Outcome)
    (hrun : runWithListener env acts = some out) :
    (∀ o, env.parse = .ok o →
        ∃ front, LogLine.completed ∉ front ∧
          (logged out.trace = front ++ [.completed] ∨
            logged out.trace =
              front ++ [.completed, .listening (parsedCfg o).Web.APIHost])) ∧
      (∀ o e, env.parse = .ok o → env.confString = .error e →
        logged out.trace = [.completed]) ∧
      (∀ o err, env.parse = .ok o → Event.recvServerError err ∈ out.trace →
        ∃ text, env.confString = .ok text ∧
          logged out.trace =
            [.config text, .initAPI, .listening (parsedCfg o).Web.APIHost, .completed] ∧
          ((logged out.trace).map LogLine.text).getLast? = some "main: Completed") ∧
      (∀ sig, Event.recvSignal sig ∈ out.trace →
        ∃ text, env.confString = .ok text ∧
          List.Sublist [.config text, .initAPI, .startShutdown sig, .completed]
            (logged out.trace) ∧
          List.Sublist
            ["main: Config :\n" ++ text, "main: Initializing API support",
             "main: " ++ sig.String ++ " : Start shutdown", "main: Completed"]
            ((logged out.trace).map LogLine.text)) ∧
      (∀ p, env.parse = .error p →
        LogLine.completed ∉ logged out.trace ∧
        (logged out.trace = [] ∨
          (∃ text, env.usage = .ok text ∧ logged out.trace = [.usage text]) ∨
          (∃ text, env.version = .ok text ∧ logged out.trace = [.version text]))) := by
  cases hp : env.parse with
  | error p =>
    rw [runWithListener_of_parse_error env acts p hp] at hrun
    have hout : out = run env := by simpa using hrun.symm
    subst hout
    refine ⟨by simp, by simp, by simp, ?_, ?_⟩
    · intro sig hmem
      obtain ⟨o, _, hpo, _, _⟩ := (recvSignal_mem_iff env sig).mp hmem
      simp [hp] at hpo
    · intro q hq
      exact (main_flow_log env).2.2.2.2 q (hp.trans hq)
  | ok o =>
    cases hc : env.confString with
    | error e =>
      rw [runWithListener_of_confString_error env acts o e hp hc] at hrun
      have hout : out = run env := by simpa using hrun.symm
      subst hout
      have hlog : logged (run env).trace = [.completed] :=
        (main_flow_log env).2.1 o e hp hc
      refine ⟨?_, ?_, ?_, ?_, by simp⟩
      · intro o2 _
        exact ⟨[], by simp, Or.inl (by simp [hlog])⟩
      · intro _ _ _ _
        exact hlog
      · intro o2 err _ hmem
        obtain ⟨_, _, _, hco, _⟩ := (recvServerError_mem_iff env err).mp hmem
        simp [hc] at hco
      · intro sig hmem
        obtain ⟨_, _, _, hco, _⟩ := (recvSignal_mem_iff env sig).mp hmem
        simp [hc] at hco
    | ok text =>
      obtain ⟨sel, front, back, _, htrace, hsplit, hsel⟩ :=
        runWithListener_shape env acts out o text hp hc hrun
      cases sel with
      | serverError err =>
        obtain ⟨rfl, rfl⟩ := hsel err rfl
        refine ⟨?_, by simp, ?_, ?_, by simp⟩
        · intro o2 ho2
          obtain rfl : o = o2 := by simpa using ho2
          refine ⟨[.config text, .initAPI, .listening (parsedCfg o).Web.APIHost], by simp,
            Or.inl ?_⟩
          simp [htrace, logged, startEvents, awaitShutdown]
        · intro o2 err2 ho2 _
          obtain rfl : o = o2 := by simpa using ho2
          refine ⟨text, rfl, ?_, ?_⟩
          · simp [htrace, logged, startEvents, awaitShutdown]
          · simp [htrace, logged, startEvents, awaitShutdown, LogLine.text]
        · intro sig hmem
          simp [htrace, startEvents, awaitShutdown] at hmem
      | signal sig =>
        have hlogged : logged out.trace =
            [.config text, .initAPI] ++ logged front ++
              [.startShutdown sig, .completed] ++ logged back := by
          cases hsh : env.shutdown <;>
            simp [htrace, logged, startEvents, awaitShutdown, hsh, List.filterMap_append]
        refine ⟨?_, by simp, ?_, ?_, by simp⟩
        · intro o2 ho2
          obtain rfl : o = o2 := by simpa using ho2
          rcases hsplit with ⟨rfl, rfl⟩ | ⟨rfl, rfl⟩ | ⟨rfl, rfl⟩
          · exact ⟨[.config text, .initAPI, .startShutdown sig], by simp,
              Or.inl (by rw [hlogged]; simp [logged])⟩
          · exact ⟨[.config text, .initAPI, .listening (parsedCfg o).Web.APIHost,
              .startShutdown sig], by simp, Or.inl (by rw [hlogged]; simp [logged])⟩
          · exact ⟨[.config text, .initAPI, .startShutdown sig], by simp,
              Or.inr (by rw [hlogged]; simp [logged])⟩
        · intro o2 err _ hmem
          exfalso
          cases hsh : env.shutdown <;>
            rcases hsplit with ⟨rfl, rfl⟩ | ⟨rfl, rfl⟩ | ⟨rfl, rfl⟩ <;>
            simp [htrace, startEvents, awaitShutdown, hsh] at hmem
        · intro sig2 hmem
          have hsig : sig2 = sig := by
            cases hsh : env.shutdown <;>
              rcases hsplit with ⟨rfl, rfl⟩ | ⟨rfl, rfl⟩ | ⟨rfl, rfl⟩ <;>
              simp [htrace, startEvents, awaitShutdown, hsh] at hmem <;> exact hmem
          subst hsig
          have hsub : List.Sublist
              [LogLine.config text, .initAPI, .startShutdown sig2, .completed]
              (logged out.trace) := by
            rw [hlogged]
            rcases hsplit with ⟨rfl, rfl⟩ | ⟨rfl, rfl⟩ | ⟨rfl, rfl⟩
            · simp [logged]
            · simp only [logged, List.filterMap_cons, List.filterMap_nil, List.cons_append,
                List.nil_append, List.append_nil]
              exact List.Sublist.cons₂ _ (List.Sublist.cons₂ _
                (List.Sublist.cons _ (List.Sublist.refl _)))
            · simp only [logged, List.filterMap_cons, List.filterMap_nil, List.cons_append,
                List.nil_append, List.append_nil]
              exact List.Sublist.cons₂ _ (List.Sublist.cons₂ _ (List.Sublist.cons₂ _
                (List.Sublist.cons₂ _ (List.nil_sublist _))))
          refine ⟨text, rfl, hsub, ?_⟩
          have := hsub.map LogLine.text
          simpa [LogLine.text] using this

theorem completed_is_logged_last_witness :
    runWithListener envCleanDrain listenerThenSignal = some cleanDrainOutcome ∧
      (logged cleanDrainOutcome.trace).map LogLine.text =
        ["main: Config :\n--web-api-host=0.0.0.0:443", "main: Initializing API support",
         "main: API listening on 0.0.0.0:443", "main: interrupt : Start shutdown",
         "main: Completed"] ∧
      ∃ text, envCleanDrain.confString = .ok text ∧
        List.Sublist [.config text, .initAPI, .startShutdown .interrupt, .completed]
          (logged cleanDrainOutcome.trace) ∧
        List.Sublist
          ["main: Config :\n" ++ text, "main: Initializing API support",
           "main: " ++ Signal.interrupt.String ++ " : Start shutdown", "main: Completed"]
          ((logged cleanDrainOutcome.trace).map LogLine.text) :=
  ⟨by decide, by decide,
    (completed_is_logged_last envCleanDrain listenerThenSignal cleanDrainOutcome
      (by decide)).2.2.2.1 .interrupt (by decide)⟩

end SvcController
